import Mathlib

set_option maxRecDepth 8000

/-!
Shallow embedding of `gpio.py` from the repository 1092-raspberry-pi-gpio-0530.

The module drives eight GPIO output lines (`LEDGPIO.pins`).  Foreground effects
(flash, breath, numeric display) are serialized by a single `asyncio.Lock`; a
`StandalonePWM` background oscillator runs a breath-style ramp on the first pin
while a number is displayed, and is reconciled (cooperative stop with 1 s wait,
then forced stop) by `clean_number`.  Lines are identified below by their index
`0..7` in the `pins` list.  Timed sleeps are recorded as millisecond constants;
loop checkpoints of the two stop events are modelled by an explicit schedule
`stop : Nat → Bool` giving the value of the event at the i-th check.
-/

/-- Errors surfaced by the coordinator: `ValueError` raised by `show_number`,
`RuntimeError('Some work is still running')` raised by `close`, and
`concurrent.futures.TimeoutError` raised by `future.result(1)` inside
`clean_number`. -/
inductive GErr where
  | validation
  | busy
  | hwTimeout
deriving DecidableEq

/-- Observable hardware and coordination events emitted by the embedded
operations, in program order. -/
inductive Ev where
  | cleanup
  | lockAcquire
  | lockRelease
  | oscLaunch
  | oscSetStop
  | oscCoopStop
  | oscForceStop
  | write (idx : Nat) (level : Bool)
  | pwmStart (idx : Nat)
  | pwmDuty (idx : Nat) (dc : Nat)
  | pwmStop (idx : Nat)
  | releaseAll
deriving DecidableEq

/-- State of the `StandalonePWM` background oscillator (`breath_pwm`):
its private `stop_request` event and whether its `GPIO.PWM` handle is
still running (`self.pwm` not yet stopped / set to `None`). -/
structure OscState where
  stopRequested : Bool
  pwmActive : Bool
deriving DecidableEq

/-- State of a `LEDGPIO` instance: logical level of the eight output lines
(indexed by position in `pins`), the `clean_required` event, the optional
outstanding `StandalonePWM`, and the class-level `event` signal that marks an
effect as active. -/
structure LedState where
  lines : List Bool
  cleanRequired : Bool
  breathPwm : Option OscState
  eventActive : Bool
deriving DecidableEq

/-- `LEDGPIO.pins = [17, 27, 22, 5, 6, 13, 19, 26]` (BCM numbering). -/
def pins : List Nat := [17, 27, 22, 5, 6, 13, 19, 26]

/-- Fresh coordinator state right after `LEDGPIO.__init__`: all lines configured
as outputs (reading LOW), no pending cleanup, no oscillator, idle. -/
def ledInit : LedState :=
  { lines := List.replicate 8 false, cleanRequired := false,
    breathPwm := none, eventActive := false }

/-- Digits of `n` in base `b`, most significant first, fuel-bounded.  Mirrors
Python numeral formatting (`bin(n)[2:]`, `str(n)`): at least one digit, no
leading zeros. -/
def toDigitsAux (b : Nat) : Nat → Nat → List Nat → List Nat
  | 0, _, acc => acc
  | fuel + 1, n, acc => if n < b then n :: acc else toDigitsAux b fuel (n / b) (n % b :: acc)

/-- Base-`b` digit string of `n`, most significant digit first. -/
def toDigits (b n : Nat) : List Nat := toDigitsAux b (n + 1) n []

/-- Value of a digit string read in base `b` (Python `int` on a digit string). -/
def ofDigits (b : Nat) (ds : List Nat) : Nat := ds.foldl (fun acc d => acc * b + d) 0

/-- `gpio.py` line 172: `b = f'{int(bin(number)[2:]):07}'` — the binary digit
string of `number`, re-read as a decimal integer, then formatted back as a
decimal string zero-padded to width 7. -/
def showNumberDigits (number : Nat) : List Nat :=
  let binDigits := toDigits 2 number
  let asDecimal := ofDigits 10 binDigits
  let decDigits := toDigits 10 asDecimal
  List.replicate (7 - decDigits.length) 0 ++ decDigits

/-- The seven levels written by `show_number`: `GPIO.HIGH if int(b[i]) else GPIO.LOW`. -/
def showNumberBits (number : Nat) : List Bool :=
  (showNumberDigits number).map (fun d => d != 0)

/-- Reading the displayed line pattern back as a binary number, MSB first. -/
def decodeBits (bs : List Bool) : Nat :=
  ofDigits 2 (bs.map (fun b => if b then 1 else 0))

/-- Effect of one `GPIO.output` event on the line-state list. -/
def applyWrite (lines : List Bool) : Ev → List Bool
  | Ev.write i b => lines.set i b
  | _ => lines

/-- Replay a trace of events over the line states. -/
def applyEvents (lines : List Bool) (evs : List Ev) : List Bool :=
  evs.foldl applyWrite lines

/-- `for pin in self.pins: GPIO.output(pin, GPIO.LOW)` in `clean_number`. -/
def lowWrites : List Ev := (List.range 8).map (fun i => Ev.write i false)

/-- `LEDGPIO.clean_number`: under the lock, reconcile an outstanding
`StandalonePWM` — `set_stop()`, then `future.result(1)`; a
`concurrent.futures.TimeoutError` is caught and answered by `force_stop()`
(cancel the future and stop PWM from the caller's side) — then drive every pin
LOW and clear `clean_required`.  `responsive` says whether the oscillator
finished within the 1-second wait.  Both paths return successfully: the
timeout never propagates. -/
def cleanNumber (responsive : Bool) (s : LedState) : Except GErr (LedState × List Ev) :=
  let oscPart : List Ev × Option OscState :=
    match s.breathPwm with
    | none => ([], none)
    | some osc =>
      if responsive then
        ([Ev.oscSetStop, Ev.oscCoopStop], some { osc with stopRequested := true, pwmActive := false })
      else
        ([Ev.oscSetStop, Ev.oscForceStop], some { osc with stopRequested := true, pwmActive := false })
  Except.ok
    ({ s with lines := applyEvents s.lines lowWrites,
              cleanRequired := false,
              breathPwm := oscPart.2 },
     Ev.cleanup :: Ev.lockAcquire :: (oscPart.1 ++ lowWrites ++ [Ev.lockRelease]))

/-- Number of executed bodies of `for _ in range(k): if stop_event.is_set():
break; body`, where `stop i` is the value of the stop event at the i-th check
(Python `range` of a non-positive count is empty). -/
def stopRun (stop : Nat → Bool) : Nat → Nat → Nat
  | 0, _ => 0
  | k + 1, i => if stop i then 0 else stopRun stop k (i + 1) + 1

/-- Executed bodies of `while True: if stop_event.is_set(): break; body`,
observed for up to `fuel` checks; `none` when the stop event is not set at any
of the first `fuel` checks, i.e. the loop is still running. -/
def stopRunIndef (stop : Nat → Bool) : Nat → Nat → Option Nat
  | 0, _ => none
  | fuel + 1, i =>
    if stop i then some 0 else (stopRunIndef stop fuel (i + 1)).map (fun m => m + 1)

/-- `LEDGPIO._unsafe_set_light_flash`: all given pins HIGH, sleep 0.2 s, all
given pins LOW. -/
def setLightFlashRaw (idxs : List Nat) : List Ev :=
  idxs.map (fun i => Ev.write i true) ++ idxs.map (fun i => Ev.write i false)

/-- Hold interval of the flash pulse (`await asyncio.sleep(0.2)`). -/
def flashHoldMs : Nat := 200

/-- The writes of the flash repetition loop. -/
def flashEvs (stop : Nat → Bool) (times : Nat) (idxs : List Nat) : List Ev :=
  (List.range (stopRun stop times 0)).foldl (fun acc _ => acc ++ setLightFlashRaw idxs) []

/-- `LEDGPIO._set_light_flash_num`: run `clean_number` first if
`clean_required` is set, then under the lock set `event`, clear `stop_event`,
run the repetition loop, clear `event`. -/
def setLightFlashNum (stop : Nat → Bool) (responsive : Bool) (times : Int) (idxs : List Nat)
    (s : LedState) : Except GErr Unit × LedState × List Ev :=
  match (if s.cleanRequired then cleanNumber responsive s else Except.ok (s, [])) with
  | Except.error e => (Except.error e, s, [])
  | Except.ok (s0, tr0) =>
    let evs := flashEvs stop times.toNat idxs
    (Except.ok (), { s0 with lines := applyEvents s0.lines evs, eventActive := false },
     tr0 ++ Ev.lockAcquire :: (evs ++ [Ev.lockRelease]))

/-- Default pin selection of `set_light_flash`: `self.pins[int(not is_odd)::2]`,
as indices into the pin list. -/
def flashDefaultIdxs (isOdd : Bool) : List Nat :=
  (List.range 8).filter (fun i => i % 2 == (if isOdd then 0 else 1))

/-- `LEDGPIO.set_light_flash`. -/
def setLightFlash (stop : Nat → Bool) (responsive : Bool) (times : Int)
    (customIdx : Option (List Nat)) (isOdd : Bool) (s : LedState) :
    Except GErr Unit × LedState × List Ev :=
  let idxs :=
    match customIdx with
    | none => flashDefaultIdxs isOdd
    | some l => l
  setLightFlashNum stop responsive times idxs s

/-- Duty cycles written by the ascending loop of `_unsafe_light_breath`:
`for dc in range(10): pwm.ChangeDutyCycle(dc * 10)`. -/
def breathUpDuty : List Nat := (List.range 10).map (fun dc => dc * 10)

/-- Duty cycles written by the descending loop of `_unsafe_light_breath`:
`for dc in range(10, -1, -1): pwm.ChangeDutyCycle(dc * 10)`. -/
def breathDownDuty : List Nat := (List.range 11).map (fun i => (10 - i) * 10)

/-- Sleep after each duty-cycle step of the breath effect (`asyncio.sleep(.05)`). -/
def breathStepDelayMs : Nat := 50

/-- Pause between the ascending and descending loops (`asyncio.sleep(.05)`). -/
def breathPauseMs : Nat := 50

/-- `for dc in duties: for pwm in pwms: pwm.ChangeDutyCycle(dc)` on the given lines. -/
def dutyWrites (idxs : List Nat) (duties : List Nat) : List Ev :=
  duties.foldl (fun acc dc => acc ++ idxs.map (fun i => Ev.pwmDuty i dc)) []

/-- `LEDGPIO._unsafe_light_breath`: ramp up, pause, ramp down. -/
def lightBreathRaw (idxs : List Nat) : List Ev :=
  dutyWrites idxs breathUpDuty ++ dutyWrites idxs breathDownDuty

/-- Line selection of `set_light_breath`: all eight pins, or
`self.pins[x - 1]` for each member of a 1-indexed subset. -/
def breathIdxs : Option (List Nat) → List Nat
  | none => List.range 8
  | some l => l.map (fun x => x - 1)

/-- Repetition count of `set_light_breath`: a bounded `for` loop when
`times = some k`, an unbounded `while True` loop when `times = none`; both
check `stop_event` before each repetition. -/
def breathIters (stop : Nat → Bool) (fuel : Nat) : Option Int → Option Nat
  | some k => some (stopRun stop k.toNat 0)
  | none => stopRunIndef stop fuel 0

/-- Default repeat count of `set_light_breath` — the signature at gpio.py:131
is `times: Optional[int] = 1`, so a call with the count absent (as in
`api_server.py:56`, `set_light_breath()`) uses the explicit count 1, not
the indefinite `None`. -/
def breathDefaultTimes : Option Int := some 1

/-- The PWM duty writes of the breath repetition loop. -/
def breathEvs (iters : Nat) (idxs : List Nat) : List Ev :=
  (List.range iters).foldl (fun acc _ => acc ++ lightBreathRaw idxs) []

/-- `LEDGPIO.set_light_breath`: resolve the line subset, run `clean_number`
first if `clean_required` is set, then under the lock start PWM on every
targeted line at 0 %, run the repetition loop, stop every PWM, clear `event`.
Result `none` means the indefinite loop has not terminated within `fuel`
stop-event checks. -/
def setLightBreath (stop : Nat → Bool) (fuel : Nat) (responsive : Bool)
    (times : Option Int) (sel : Option (List Nat)) (s : LedState) :
    Option (Except GErr Unit × LedState × List Ev) :=
  let idxs := breathIdxs sel
  match (if s.cleanRequired then cleanNumber responsive s else Except.ok (s, [])) with
  | Except.error e => some (Except.error e, s, [])
  | Except.ok (s0, tr0) =>
    match breathIters stop fuel times with
    | none => none
    | some iters =>
      some (Except.ok (), { s0 with eventActive := false },
        tr0 ++ Ev.lockAcquire ::
          (idxs.map Ev.pwmStart ++ breathEvs iters idxs ++ idxs.map Ev.pwmStop ++ [Ev.lockRelease]))

/-- `LEDGPIO.show_number`: reject values outside `0 < number < 128` with
`ValueError` before touching any hardware; otherwise, under the lock,
optionally launch a fresh `StandalonePWM` on `pins[0]`, set `clean_required`,
and write the seven formatted bits to `pins[1..7]`.  Note: no
`clean_required` check is made on entry. -/
def showNumber (number : Int) (showBreath : Bool) (s : LedState) :
    Except GErr Unit × LedState × List Ev :=
  if 0 < number ∧ number < 128 then
    let oscPart : LedState × List Ev :=
      if showBreath then
        ({ s with breathPwm := some { stopRequested := false, pwmActive := true } },
         [Ev.oscLaunch])
      else (s, [])
    let bits := showNumberBits number.toNat
    let wEvs := (List.range 7).map (fun i => Ev.write (i + 1) (bits.getD i false))
    (Except.ok (),
     { oscPart.1 with lines := applyEvents oscPart.1.lines wEvs,
                      cleanRequired := true, eventActive := false },
     Ev.lockAcquire :: (oscPart.2 ++ wEvs ++ [Ev.lockRelease]))
  else (Except.error GErr.validation, s, [])

/-- `LEDGPIO.close`: refuse with `RuntimeError` while `event` is set.  The
Python source then tests `if self.clean_required:` on the `asyncio.Event`
object itself — which is always truthy — so `clean_number` runs on every
non-busy call; finally `GPIO.cleanup()` releases all line resources. -/
def close (responsive : Bool) (s : LedState) : Except GErr Unit × LedState × List Ev :=
  if s.eventActive then (Except.error GErr.busy, s, [])
  else
    match cleanNumber responsive s with
    | Except.error e => (Except.error e, s, [])
    | Except.ok (s1, tr1) => (Except.ok (), s1, tr1 ++ [Ev.releaseAll])

/-- Per-step sleep of the `StandalonePWM` ramp (`await asyncio.sleep(.2)`). -/
def oscStepDelayMs : Nat := 200

/-- Pause after each half-ramp of the `StandalonePWM` (`await asyncio.sleep(1)`). -/
def oscPauseMs : Nat := 1000

/-- `StandalonePWM.runnable`: `while not self.stop_request.is_set():` one full
up/down ramp cycle; after the loop exits, `self.pwm.stop()` and
`self.pwm = None`.  Returns the number of full ramp cycles executed together
with the final pwm handle (`none` = stopped and released), or `none` when the
stop request is not observed within `fuel` checks. -/
def pwmRunnable (stop : Nat → Bool) (fuel : Nat) : Option (Nat × Option Unit) :=
  (stopRunIndef stop fuel 0).map (fun c => (c, none))

/-- Events of the serialization model: a task acquires the effect mutex,
writes lines, releases the mutex. -/
inductive LockEv where
  | acquire (id : Nat)
  | write (id : Nat) (line : Nat)
  | release (id : Nat)
deriving DecidableEq

/-- Semantics of `asyncio.Lock` as used by `async with self.lock`: the holder
is `some id`; acquiring blocks (is not enabled) while held; a task may write a
line only while holding the lock, which is how every flash/breath/show-number
write is performed in `gpio.py`. -/
def lockStep : Option Nat → LockEv → Option (Option Nat)
  | none, LockEv.acquire i => some (some i)
  | some _, LockEv.acquire _ => none
  | some h, LockEv.write i _ => if h = i then some (some h) else none
  | none, LockEv.write _ _ => none
  | some h, LockEv.release i => if h = i then some none else none
  | none, LockEv.release _ => none

/-- Run a whole schedule of lock events; `none` when the schedule violates the
lock discipline (it is not a possible interleaving). -/
def runLock : Option Nat → List LockEv → Option (Option Nat)
  | h, [] => some h
  | h, e :: t =>
    match lockStep h e with
    | none => none
    | some h2 => runLock h2 t

/-- An idle state with a stale display: `clean_required` is set, no
oscillator outstanding. -/
def dirtyIdle : LedState :=
  { lines := List.replicate 8 false, cleanRequired := true,
    breathPwm := none, eventActive := false }

/-- An idle state with an outstanding, still running background oscillator. -/
def oscBusyState : LedState :=
  { lines := [false, true, false, true, true, false, true, false], cleanRequired := true,
    breathPwm := some { stopRequested := false, pwmActive := true }, eventActive := false }

/-- A state in which an effect is currently active. -/
def busyState : LedState :=
  { lines := List.replicate 8 false, cleanRequired := false,
    breathPwm := none, eventActive := true }

/-! ### Helper lemmas -/

/-- Driving pins 0..7 LOW (the `clean_number` loop) leaves all eight lines LOW. -/
theorem applyEvents_lowWrites (l : List Bool) (h : l.length = 8) :
    applyEvents l lowWrites = List.replicate 8 false := by
  match l, h with
  | [a, b, c, d, e, f, g, i], _ => rfl

/-- A `for` loop with a stop check runs at most its range bound many bodies. -/
theorem stopRun_le (stop : Nat → Bool) : ∀ k i, stopRun stop k i ≤ k := by
  intro k
  induction k with
  | zero => intro i; simp [stopRun]
  | succ k ih =>
    intro i
    simp only [stopRun]
    split
    · omega
    · have := ih (i + 1); omega

/-- Every executed body of the bounded loop was preceded by a failed stop check. -/
theorem stopRun_not_stopped (stop : Nat → Bool) :
    ∀ k i j, j < stopRun stop k i → stop (i + j) = false := by
  intro k
  induction k with
  | zero => intro i j h; simp [stopRun] at h
  | succ k ih =>
    intro i j h
    simp only [stopRun] at h
    by_cases hs : stop i = true
    · rw [if_pos hs] at h; omega
    · rw [if_neg hs] at h
      cases j with
      | zero => simpa using hs
      | succ jj =>
        have h2 : i + (jj + 1) = (i + 1) + jj := by omega
        rw [h2]
        exact ih (i + 1) jj (by omega)

/-- When the unbounded loop exits after `m` bodies, the stop event was set at
check `m` and at no earlier check. -/
theorem stopRunIndef_some (stop : Nat → Bool) :
    ∀ fuel i m, stopRunIndef stop fuel i = some m →
      stop (i + m) = true ∧ ∀ j, j < m → stop (i + j) = false := by
  intro fuel
  induction fuel with
  | zero => intro i m h; simp [stopRunIndef] at h
  | succ fuel ih =>
    intro i m h
    simp only [stopRunIndef] at h
    by_cases hs : stop i = true
    · rw [if_pos hs] at h
      injection h with h
      subst h
      exact ⟨by simpa using hs, by omega⟩
    · rw [if_neg hs] at h
      rw [Option.map_eq_some'] at h
      obtain ⟨m', hm', rfl⟩ := h
      obtain ⟨h1, h2⟩ := ih (i + 1) m' hm'
      refine ⟨by
        have : i + (m' + 1) = (i + 1) + m' := by omega
        rw [this]; exact h1, ?_⟩
      intro j hj
      cases j with
      | zero => simpa using hs
      | succ jj =>
        have : i + (jj + 1) = (i + 1) + jj := by omega
        rw [this]
        exact h2 jj (by omega)

/-- When the unbounded loop is still running, no stop check has succeeded yet. -/
theorem stopRunIndef_none (stop : Nat → Bool) :
    ∀ fuel i, stopRunIndef stop fuel i = none → ∀ j, j < fuel → stop (i + j) = false := by
  intro fuel
  induction fuel with
  | zero => intro i _ j hj; omega
  | succ fuel ih =>
    intro i h j hj
    simp only [stopRunIndef] at h
    by_cases hs : stop i = true
    · rw [if_pos hs] at h; exact absurd h (by simp)
    · rw [if_neg hs] at h
      cases j with
      | zero => simpa using hs
      | succ jj =>
        have heq : i + (jj + 1) = (i + 1) + jj := by omega
        rw [heq]
        have hnone : stopRunIndef stop fuel (i + 1) = none := by
          cases hc : stopRunIndef stop fuel (i + 1) with
          | none => rfl
          | some m => rw [hc] at h; simp at h
        exact ih (i + 1) hnone jj (by omega)

/-- A stop request set at check `k` makes the unbounded loop exit after at most
`k` bodies. -/
theorem stopRunIndef_of_stop (stop : Nat → Bool) :
    ∀ fuel i k, stop (i + k) = true → k < fuel →
      ∃ m, m ≤ k ∧ stopRunIndef stop fuel i = some m := by
  intro fuel
  induction fuel with
  | zero => intro i k _ hk; omega
  | succ fuel ih =>
    intro i k hk hfuel
    by_cases hs : stop i = true
    · exact ⟨0, by omega, by simp [stopRunIndef, hs]⟩
    · have hk0 : k ≠ 0 := by
        intro h0; rw [h0] at hk; simp at hk; exact hs (by simpa using hk)
      obtain ⟨kk, rfl⟩ : ∃ kk, k = kk + 1 := ⟨k - 1, by omega⟩
      have hk2 : stop ((i + 1) + kk) = true := by
        have : (i + 1) + kk = i + (kk + 1) := by omega
        rw [this]; exact hk
      obtain ⟨m, hm, heq⟩ := ih (i + 1) kk hk2 (by omega)
      exact ⟨m + 1, by omega, by simp [stopRunIndef, hs, heq]⟩

/-- `runLock` splits over concatenation of schedules. -/
theorem runLock_append (a b : List LockEv) : ∀ h, runLock h (a ++ b) =
    match runLock h a with
    | none => none
    | some h2 => runLock h2 b := by
  induction a with
  | nil => intro h; rfl
  | cons e t ih =>
    intro h
    simp only [List.cons_append, runLock]
    cases hc : lockStep h e with
    | none => rfl
    | some h2 => exact ih h2

/-- While task `i` holds the lock, only its own `release` can change the holder. -/
theorem runLock_no_release (i : Nat) : ∀ t h2, runLock (some i) t = some h2 →
    LockEv.release i ∉ t → h2 = some i := by
  intro t
  induction t with
  | nil =>
    intro h2 hrun _
    simp only [runLock] at hrun
    injection hrun with hrun
    exact hrun.symm
  | cons e t ih =>
    intro h2 hrun hn
    have hne : e ≠ LockEv.release i := fun he => hn (by rw [he]; exact List.mem_cons_self _ _)
    have hnt : LockEv.release i ∉ t := fun ht => hn (List.mem_cons_of_mem _ ht)
    cases e with
    | acquire j => simp [runLock, lockStep] at hrun
    | write j l =>
      by_cases hij : i = j
      · subst hij
        simp only [runLock, lockStep, if_pos rfl] at hrun
        exact ih h2 hrun hnt
      · simp [runLock, lockStep, hij] at hrun
    | release j =>
      by_cases hij : i = j
      · subst hij; exact absurd rfl hne
      · simp [runLock, lockStep, hij] at hrun

/-! ### Claim theorems -/

/-- Claim C1: for every integer `n` with `0 < n < 128`, `show_number(n)` writes
the 7-bit most-significant-bit-first binary encoding of `n` to the seven
display lines (HIGH for a 1 bit, LOW for a 0 bit) — from the freshly
initialised state the lines end as `false :: bits of n`, the display pins
being `pins[1..7]` — and decoding the 7-line pattern recovers `n` exactly. -/
theorem show_number_roundtrip (n : Nat) (h1 : n < 128) (h2 : 0 < n) :
    decodeBits (showNumberBits n) = n ∧
    showNumberBits n = (List.range 7).map (fun i => Nat.testBit n (6 - i)) ∧
    (showNumber (Int.ofNat n) true ledInit).2.1.lines =
      false :: (List.range 7).map (fun i => Nat.testBit n (6 - i)) := by
  have H : ∀ m, m < 128 → 0 < m →
      (decodeBits (showNumberBits m) = m ∧
       showNumberBits m = (List.range 7).map (fun i => Nat.testBit m (6 - i)) ∧
       (showNumber (Int.ofNat m) true ledInit).2.1.lines =
         false :: (List.range 7).map (fun i => Nat.testBit m (6 - i))) := by decide
  exact H n h1 h2

/-- Witness for C1 at `n = 90` (binary `1011010`). -/
theorem show_number_roundtrip_witness :
    decodeBits (showNumberBits 90) = 90 ∧
    showNumberBits 90 = (List.range 7).map (fun i => Nat.testBit 90 (6 - i)) ∧
    (showNumber (Int.ofNat 90) true ledInit).2.1.lines =
      false :: (List.range 7).map (fun i => Nat.testBit 90 (6 - i)) :=
  show_number_roundtrip 90 (by decide) (by decide)

/-- Claim C2 counterexample: with `clean_required` set on entry,
`show_number` succeeds without ever running `clean_number` — the claim's
numeric-display case is false on the code (gpio.py lines 162-175 have no
`clean_required` check, unlike lines 106-107 and 138-139). -/
theorem show_number_skips_cleanup_counterexample :
    dirtyIdle.cleanRequired = true ∧
    (showNumber 5 true dirtyIdle).1 = Except.ok () ∧
    Ev.cleanup ∉ (showNumber 5 true dirtyIdle).2.2 :=
  ⟨rfl, rfl, by decide⟩

/-- Claim C2 (amended): for flash and breath starts, if `clean_required` is set
on entry then cleanup runs first — reconciling any outstanding oscillator and
driving every line LOW — before the effect performs any line write; the
numeric display, however, never runs cleanup. -/
theorem effect_cleanup_discipline
    (stop : Nat → Bool) (r : Bool) (times : Int) (idxs : List Nat)
    (fuel : Nat) (times2 : Option Int) (sel : Option (List Nat))
    (s t : LedState) (hs : s.cleanRequired = true) (ht : t.cleanRequired = true)
    (hs8 : s.lines.length = 8) (ht8 : t.lines.length = 8) :
    (∃ s0 tr0, cleanNumber r s = Except.ok (s0, tr0) ∧ tr0.head? = some Ev.cleanup ∧
      s0.cleanRequired = false ∧ s0.lines = List.replicate 8 false ∧
      setLightFlashNum stop r times idxs s =
        (Except.ok (),
         { s0 with lines := applyEvents s0.lines (flashEvs stop times.toNat idxs),
                   eventActive := false },
         tr0 ++ Ev.lockAcquire :: (flashEvs stop times.toNat idxs ++ [Ev.lockRelease]))) ∧
    (∃ t0 tr1, cleanNumber r t = Except.ok (t0, tr1) ∧ tr1.head? = some Ev.cleanup ∧
      t0.cleanRequired = false ∧ t0.lines = List.replicate 8 false ∧
      ∀ iters, breathIters stop fuel times2 = some iters →
        setLightBreath stop fuel r times2 sel t =
          some (Except.ok (), { t0 with eventActive := false },
            tr1 ++ Ev.lockAcquire ::
              ((breathIdxs sel).map Ev.pwmStart ++ breathEvs iters (breathIdxs sel) ++
               (breathIdxs sel).map Ev.pwmStop ++ [Ev.lockRelease]))) ∧
    (∀ m b u, Ev.cleanup ∉ (showNumber m b u).2.2) := by
  refine ⟨⟨_, _, rfl, rfl, rfl, applyEvents_lowWrites s.lines hs8, ?_⟩,
          ⟨_, _, rfl, rfl, rfl, applyEvents_lowWrites t.lines ht8, ?_⟩, ?_⟩
  · simp [setLightFlashNum, hs, cleanNumber]
  · intro iters hit
    simp [setLightBreath, ht, hit, cleanNumber]
  · intro m b u
    by_cases hv : 0 < m ∧ m < 128
    · simp only [showNumber, if_pos hv]
      cases b <;> simp [List.mem_map]
    · simp [showNumber, if_neg hv]

/-- Witness for the amended C2: a flash from a dirty idle state and a breath
from a state with an outstanding oscillator. -/
theorem effect_cleanup_discipline_witness :
    (∃ s0 tr0, cleanNumber false dirtyIdle = Except.ok (s0, tr0) ∧
      tr0.head? = some Ev.cleanup ∧
      s0.cleanRequired = false ∧ s0.lines = List.replicate 8 false ∧
      setLightFlashNum (fun _ => false) false 1 [0] dirtyIdle =
        (Except.ok (),
         { s0 with lines := applyEvents s0.lines (flashEvs (fun _ => false) (1 : Int).toNat [0]),
                   eventActive := false },
         tr0 ++ Ev.lockAcquire ::
           (flashEvs (fun _ => false) (1 : Int).toNat [0] ++ [Ev.lockRelease]))) ∧
    (∃ t0 tr1, cleanNumber false oscBusyState = Except.ok (t0, tr1) ∧
      tr1.head? = some Ev.cleanup ∧
      t0.cleanRequired = false ∧ t0.lines = List.replicate 8 false ∧
      ∀ iters, breathIters (fun _ => false) 1 (some 1) = some iters →
        setLightBreath (fun _ => false) 1 false (some 1) none oscBusyState =
          some (Except.ok (), { t0 with eventActive := false },
            tr1 ++ Ev.lockAcquire ::
              ((breathIdxs none).map Ev.pwmStart ++ breathEvs iters (breathIdxs none) ++
               (breathIdxs none).map Ev.pwmStop ++ [Ev.lockRelease]))) ∧
    (∀ m b u, Ev.cleanup ∉ (showNumber m b u).2.2) :=
  effect_cleanup_discipline (fun _ => false) false 1 [0] 1 (some 1) none
    dirtyIdle oscBusyState rfl rfl rfl rfl

/-- Claim C3: for every integer `n` with `n ≤ 0` or `n ≥ 128`, `show_number`
fails with the validation error, performs no hardware write (empty trace), and
leaves the state — lines, oscillator, `clean_required` — exactly unchanged. -/
theorem show_number_validation (n : Int) (h : n ≤ 0 ∨ 128 ≤ n) (b : Bool) (s : LedState) :
    showNumber n b s = (Except.error GErr.validation, s, []) := by
  have hv : ¬(0 < n ∧ n < 128) := by omega
  simp only [showNumber, if_neg hv]

/-- Witness for C3 at `n = 200`. -/
theorem show_number_validation_witness :
    showNumber 200 true ledInit = (Except.error GErr.validation, ledInit, []) :=
  show_number_validation 200 (Or.inr (by decide)) true ledInit

/-- Claim C4: when the background oscillator does not finish within the
1-second wait (`responsive = false`), `clean_number` catches the timeout and
force-stops the oscillator from the caller's side (`future.cancel()` plus
`pwm.stop()`); on return every line — including the oscillator's line 0 —
reads LOW, `clean_required` is cleared, the oscillator's PWM is stopped, and
the result is still `Except.ok`: the timeout never escapes to the caller. -/
theorem clean_number_forced_stop (s : LedState) (osc : OscState)
    (hosc : s.breathPwm = some osc) (hlen : s.lines.length = 8) :
    cleanNumber false s =
      Except.ok
        ({ s with lines := List.replicate 8 false, cleanRequired := false,
                  breathPwm := some { stopRequested := true, pwmActive := false } },
         Ev.cleanup :: Ev.lockAcquire ::
           ([Ev.oscSetStop, Ev.oscForceStop] ++ lowWrites ++ [Ev.lockRelease])) := by
  simp only [cleanNumber, hosc, Bool.false_eq_true, if_false,
    applyEvents_lowWrites s.lines hlen]

/-- Witness for C4: an unresponsive oscillator over a dirty line pattern. -/
theorem clean_number_forced_stop_witness :
    cleanNumber false oscBusyState =
      Except.ok
        ({ oscBusyState with lines := List.replicate 8 false, cleanRequired := false,
                             breathPwm := some { stopRequested := true, pwmActive := false } },
         Ev.cleanup :: Ev.lockAcquire ::
           ([Ev.oscSetStop, Ev.oscForceStop] ++ lowWrites ++ [Ev.lockRelease])) :=
  clean_number_forced_stop oscBusyState { stopRequested := false, pwmActive := true } rfl rfl

/-- Claim C5: `close()` fails with the busy error when an effect is active,
leaving the state unchanged and emitting no event (the running effect is not
aborted); called while idle with `clean_required` set, it runs `clean_number`
(cleanup first in the trace) before releasing all line resources. -/
theorem close_busy_or_cleanup (r : Bool) (s t : LedState)
    (hbusy : s.eventActive = true)
    (hidle : t.eventActive = false) (_hcr : t.cleanRequired = true) :
    close r s = (Except.error GErr.busy, s, []) ∧
    (∃ t0 tr0, cleanNumber r t = Except.ok (t0, tr0) ∧ tr0.head? = some Ev.cleanup ∧
      t0.cleanRequired = false ∧
      close r t = (Except.ok (), t0, tr0 ++ [Ev.releaseAll])) := by
  constructor
  · simp [close, hbusy]
  · refine ⟨_, _, rfl, rfl, rfl, ?_⟩
    simp [close, hidle, cleanNumber]

/-- Witness for C5: a busy state and a dirty idle state. -/
theorem close_busy_or_cleanup_witness :
    close true busyState = (Except.error GErr.busy, busyState, []) ∧
    (∃ t0 tr0, cleanNumber true dirtyIdle = Except.ok (t0, tr0) ∧ tr0.head? = some Ev.cleanup ∧
      t0.cleanRequired = false ∧
      close true dirtyIdle = (Except.ok (), t0, tr0 ++ [Ev.releaseAll])) :=
  close_busy_or_cleanup true busyState dirtyIdle rfl rfl rfl

/-- Claim C6 counterexample: the ascending loop of `_unsafe_light_breath`
never writes 100 % — it stops at 90 % — and the descending loop does not have
the same number of steps (11 versus 10), refuting "ramps from 0 % up to 100 %
in 10 fixed steps ... then ramps back down to 0 % in the same steps". -/
theorem breath_ramp_counterexample :
    100 ∉ breathUpDuty ∧ breathUpDuty.getLast? = some 90 ∧
    breathDownDuty.length ≠ breathUpDuty.length := by decide

/-- Claim C6 (amended): each repetition ramps the duty cycle on every targeted
line from 0 % up to 90 % in 10 steps of 10 percentage points (≈50 ms each),
pauses ≈50 ms, then ramps from 100 % down to 0 % in 11 steps — the 100 % peak
is written as the first step of the descending loop. -/
theorem breath_ramp_shape :
    breathUpDuty = [0, 10, 20, 30, 40, 50, 60, 70, 80, 90] ∧
    breathDownDuty = [100, 90, 80, 70, 60, 50, 40, 30, 20, 10, 0] ∧
    breathUpDuty.length = 10 ∧ breathDownDuty.length = 11 ∧
    breathStepDelayMs = 50 ∧ breathPauseMs = 50 ∧
    lightBreathRaw [2] =
      breathUpDuty.map (fun dc => Ev.pwmDuty 2 dc) ++
      breathDownDuty.map (fun dc => Ev.pwmDuty 2 dc) := by decide

/-- Claim C7 counterexample: an absent repeat count does not run
indefinitely.  The signature default is `times = 1` (gpio.py:131), so the
default call — with the stop event never set, and even with zero budget for
the `while True` loop, which the default path never enters — terminates
after exactly one repetition. -/
theorem breath_default_terminates_counterexample :
    breathDefaultTimes = some 1 ∧
    breathIters (fun _ => false) 0 breathDefaultTimes = some 1 ∧
    setLightBreath (fun _ => false) 0 true breathDefaultTimes none ledInit =
      some (Except.ok (), { ledInit with eventActive := false },
        Ev.lockAcquire ::
          ((breathIdxs none).map Ev.pwmStart ++ breathEvs 1 (breathIdxs none) ++
           (breathIdxs none).map Ev.pwmStop ++ [Ev.lockRelease])) :=
  ⟨rfl, rfl, rfl⟩

/-- Claim C7 (amended): with `times = some k` the breath loop runs at most
`k` repetitions, checking the stop event before each one (every executed
repetition saw the stop event unset, and the count never passes a set check);
with an explicit `times = none` it runs until the stop event is set — it
terminates with `m` repetitions exactly when check `m` is the first set
check, and runs on as long as no check is set; a call with the count absent
uses the default count 1 and runs at most one repetition. -/
theorem breath_repeat_semantics
    (stop stop2 : Nat → Bool) (fuel : Nat) (k : Int) (n m : Nat)
    (h1 : breathIters stop fuel (some k) = some n)
    (h2 : breathIters stop fuel none = some m)
    (h3 : breathIters stop2 fuel none = none) :
    (n ≤ k.toNat ∧ (∀ j, j < n → stop j = false) ∧ (∀ j, stop j = true → n ≤ j)) ∧
    (stop m = true ∧ ∀ j, j < m → stop j = false) ∧
    (∀ j, j < fuel → stop2 j = false) ∧
    (breathDefaultTimes = some 1 ∧
     ∀ n2, breathIters stop fuel breathDefaultTimes = some n2 →
       n2 ≤ 1 ∧ ∀ j, j < n2 → stop j = false) := by
  simp only [breathIters] at h1 h2 h3
  injection h1 with h1
  subst h1
  have hnot : ∀ j, j < stopRun stop k.toNat 0 → stop j = false := by
    intro j hj
    have := stopRun_not_stopped stop k.toNat 0 j hj
    simpa using this
  refine ⟨⟨stopRun_le stop k.toNat 0, hnot, ?_⟩, ⟨?_, ?_⟩, ?_, rfl, ?_⟩
  · intro j hj
    by_contra habs
    push_neg at habs
    have hf := hnot j habs
    rw [hf] at hj
    exact Bool.noConfusion hj
  · have := (stopRunIndef_some stop fuel 0 m h2).1
    simpa using this
  · intro j hj
    have := (stopRunIndef_some stop fuel 0 m h2).2 j hj
    simpa using this
  · intro j hj
    have := stopRunIndef_none stop2 fuel 0 h3 j hj
    simpa using this
  · intro n2 hdef
    simp only [breathDefaultTimes, breathIters] at hdef
    injection hdef with hdef
    subst hdef
    refine ⟨stopRun_le stop (Int.toNat 1) 0, ?_⟩
    intro j hj
    have := stopRun_not_stopped stop (Int.toNat 1) 0 j hj
    simpa using this

/-- Witness for the amended C7: a stop event first set at check 2, under
`times = some 7`, `times = none`, the never-set stop event under
`times = none`, and the absent-count default. -/
theorem breath_repeat_semantics_witness :
    ((2 ≤ (7 : Int).toNat ∧ (∀ j, j < 2 → (fun i => decide (2 ≤ i)) j = false) ∧
      (∀ j, (fun i => decide (2 ≤ i)) j = true → 2 ≤ j)) ∧
     ((fun i => decide (2 ≤ i)) 2 = true ∧ ∀ j, j < 2 → (fun i => decide (2 ≤ i)) j = false) ∧
     (∀ j, j < 5 → (fun _ => false) j = false) ∧
     (breathDefaultTimes = some 1 ∧
      ∀ n2, breathIters (fun i => decide (2 ≤ i)) 5 breathDefaultTimes = some n2 →
        n2 ≤ 1 ∧ ∀ j, j < n2 → (fun i => decide (2 ≤ i)) j = false)) :=
  breath_repeat_semantics (fun i => decide (2 ≤ i)) (fun _ => false) 5 7 2 2 rfl rfl rfl

/-- Claim C8: once `set_stop` makes the oscillator's stop flag read true at
check `k`, `StandalonePWM.runnable` exits its loop after at most `k` full ramp
cycles — the flag is observed at the next checkpoint, so at most one full ramp
runs after the request — and the loop epilogue stops the PWM and releases its
handle (`pwm = None`). -/
theorem pwm_stop_observed (stop : Nat → Bool) (fuel k : Nat)
    (hset : stop k = true) (hfuel : k < fuel) :
    ∃ c, c ≤ k ∧ pwmRunnable stop fuel = some (c, none) ∧ ∀ j, j < c → stop j = false := by
  obtain ⟨m, hm, heq⟩ := stopRunIndef_of_stop stop fuel 0 k (by simpa using hset) hfuel
  refine ⟨m, hm, by simp [pwmRunnable, heq], ?_⟩
  intro j hj
  have := (stopRunIndef_some stop fuel 0 m heq).2 j hj
  simpa using this

/-- Witness for C8: stop flag set from check 1 on. -/
theorem pwm_stop_observed_witness :
    ∃ c, c ≤ 1 ∧ pwmRunnable (fun i => decide (1 ≤ i)) 3 = some (c, none) ∧
      ∀ j, j < c → (fun i => decide (1 ≤ i)) j = false :=
  pwm_stop_observed (fun i => decide (1 ≤ i)) 3 1 (by decide) (by decide)

/-- Claim C9: effects are strictly serialized by the effect mutex.  In the
lock semantics of `asyncio.Lock` (every flash/breath/show-number write in
`gpio.py` happens inside `async with self.lock`), any legal schedule in which
task `i` writes a line and task `j ≠ i` writes later must contain a
`release i` strictly between the two writes: the two critical sections cannot
overlap. -/
theorem effect_writes_serialized
    (t1 t2 t3 : List LockEv) (i j p q : Nat) (st : Option Nat)
    (hij : i ≠ j)
    (hrun : runLock none (t1 ++ LockEv.write i p :: (t2 ++ LockEv.write j q :: t3)) = some st) :
    LockEv.release i ∈ t2 := by
  rw [runLock_append] at hrun
  cases hc1 : runLock none t1 with
  | none => rw [hc1] at hrun; simp at hrun
  | some h1 =>
    rw [hc1] at hrun
    simp only [runLock] at hrun
    cases h1 with
    | none => simp [lockStep] at hrun
    | some hh =>
      by_cases hhi : hh = i
      · subst hhi
        simp only [lockStep, if_pos rfl, eq_self_iff_true, if_true] at hrun
        rw [runLock_append] at hrun
        cases hc2 : runLock (some hh) t2 with
        | none => rw [hc2] at hrun; simp at hrun
        | some h2 =>
          rw [hc2] at hrun
          simp only [runLock] at hrun
          cases h2 with
          | none => simp [lockStep] at hrun
          | some hh2 =>
            by_cases hhj : hh2 = j
            · subst hhj
              by_contra habs
              have := runLock_no_release hh t2 (some hh2) hc2 habs
              injection this with this
              exact hij (by rw [this])
            · simp [lockStep, hhj] at hrun
      · simp [lockStep, hhi] at hrun

/-- Witness for C9: two tasks writing pin 17 in sequence; the schedule is
legal precisely because task 0 releases before task 1 acquires. -/
theorem effect_writes_serialized_witness :
    LockEv.release 0 ∈ [LockEv.release 0, LockEv.acquire 1] :=
  effect_writes_serialized [LockEv.acquire 0] [LockEv.release 0, LockEv.acquire 1] [] 0 1 17 17
    (some 1) (by decide) (by decide)

/-- Claim C10: for every repeat count `times ≤ 0`, `set_light_flash` (from a
state with no pending cleanup) acquires and releases the mutex, performs zero
line writes — Python `range` of a non-positive count is empty — leaves the
lines unchanged, and returns normally: the repeat-count-at-least-1
precondition is not enforced at the public interface. -/
theorem flash_nonpositive_times (stop : Nat → Bool) (r : Bool) (times : Int)
    (h : times ≤ 0) (customIdx : Option (List Nat)) (isOdd : Bool)
    (s : LedState) (hcr : s.cleanRequired = false) :
    setLightFlash stop r times customIdx isOdd s =
      (Except.ok (), { s with eventActive := false }, [Ev.lockAcquire, Ev.lockRelease]) := by
  have ht : times.toNat = 0 := Int.toNat_of_nonpos h
  cases customIdx <;>
    simp [setLightFlash, setLightFlashNum, hcr, ht, flashEvs, stopRun, applyEvents]

/-- Witness for C10 at `times = -3`. -/
theorem flash_nonpositive_times_witness :
    setLightFlash (fun _ => false) true (-3) none true ledInit =
      (Except.ok (), { ledInit with eventActive := false }, [Ev.lockAcquire, Ev.lockRelease]) :=
  flash_nonpositive_times (fun _ => false) true (-3) (by decide) none true ledInit rfl
